import Mathlib

/-!
Shallow embedding of `src/pipeline.py` (an RTE electricity-generation
forecast ETL pipeline) and proofs about its specification claims.

Modelling conventions:
* Timestamps are absolute instants, measured in integer seconds since the
  Unix epoch (1970-01-01T00:00:00Z).  Python `datetime` objects that carry a
  timezone compare and subtract by absolute instant, so arithmetic on aware
  datetimes in the source is arithmetic on instants here.  `astimezone`
  preserves the instant, so it is the identity in this model.
* The pipeline's fixed timezone `RTE_TZ = Europe/Paris` has standard offset
  +01:00 and a DST component of one hour between the 2024 transitions
  (2024-03-31 01:00 UTC and 2024-10-27 01:00 UTC).  All concrete dates in
  the source lie in 2024, so `dst` below models `pytz` for that year.
* HTTP calls are modelled by explicit response values handed to the
  functions; `requests.Response.ok` is `status_code < 400`.
* Exceptions are modelled with `Except`: a `.error` result is a raised
  exception, and no output file exists in that case.
-/

/-- DST component (in seconds) of the Europe/Paris UTC offset at an absolute
instant, as reported by `pytz` via `datetime.dst()`; modelled for 2024, the
year spanned by the pipeline's configured date range: one hour between
2024-03-31 01:00 UTC (instant 1711846800) and 2024-10-27 01:00 UTC
(instant 1729990800), zero otherwise. -/
def dst (t : Int) : Int :=
  if 1711846800 ≤ t ∧ t < 1729990800 then 3600 else 0

/-- Total Europe/Paris UTC offset (seconds) at an instant: standard +01:00
plus the DST component. -/
def paris_offset (t : Int) : Int := 3600 + dst t

/-- Chunk size used by the range fetch: `DELTA_DAYS = 15` days, in seconds.
Adding `timedelta(days=15)` to an aware datetime shifts its instant by
exactly this many seconds. -/
def DELTA_SECONDS : Int := 15 * 86400

/-- Instant of the configured `START_DATE = "2024-01-01T00:00:00+01:00"`. -/
def START_DATE : Int := 1704063600

/-- Instant of the configured `END_DATE = "2024-10-01T00:00:00+02:00"`. -/
def END_DATE : Int := 1727733600

/-- Model of `handle_dst(start_time, end_time)`: both boundaries are
converted to Europe/Paris (instant-preserving, hence the identity here) and
the end instant is shifted by `start_time.dst() - end_time.dst()`.  The
Python `+=` on an aware datetime shifts the instant by the same amount
because the attached offset is unchanged. -/
def handle_dst (start_time end_time : Int) : Int × Int :=
  (start_time, end_time + dst start_time - dst end_time)

/-- Sequence of sub-intervals `(interval_start, interval_end)` generated by
the `while interval_start < end_date` loop of `get_all_data`, one pair per
API request, with the DST-corrected end of each chunk becoming the next
chunk's start.  The Python loop does not terminate for some inputs (a short
final chunk crossing the spring-forward transition can make the corrected
end fall back to the chunk's start), so the recursion is bounded by `fuel`;
`fuel` many iterations of the source loop are modelled exactly. -/
def chunks : Nat → Int → Int → List (Int × Int)
  | 0, _, _ => []
  | fuel + 1, interval_start, end_date =>
    if interval_start < end_date then
      let interval_end := min (interval_start + DELTA_SECONDS) end_date
      let corrected := handle_dst interval_start interval_end
      corrected :: chunks fuel corrected.2 end_date
    else []

/-- Boolean check that consecutive sub-intervals are contiguous: each
chunk's (DST-corrected) end equals the next chunk's start. -/
def chained : List (Int × Int) → Bool
  | [] => true
  | [_] => true
  | a :: b :: rest => (a.2 == b.1) && chained (b :: rest)

/-- Boolean check that the first chunk (if any) starts at `s`. -/
def startsAt (s : Int) : List (Int × Int) → Bool
  | [] => true
  | (a, _) :: _ => a == s

/-- Boolean check that a chunk list covers `[s, e)` exactly once: the
chunks are consecutive nonempty half-open intervals, the first starting at
`s`, each starting where the previous one ended, and the last ending at
`e`; so there are no gaps and no overlaps. -/
def coversB (s e : Int) : List (Int × Int) → Bool
  | [] => s == e
  | (a, b) :: rest => a == s && decide (a < b) && coversB b e rest

/-- Boolean check that the closed interval `[s, e]` does not straddle a
Europe/Paris DST transition, i.e. `dst` is constant on it (for `s ≤ e`). -/
def noTransition (s e : Int) : Bool :=
  (e < 1711846800) || (1711846800 ≤ s && e < 1729990800) || (1729990800 ≤ s)

/-- Boolean check that every chunk except possibly the last has a nominal
(pre-DST-correction) span of exactly 15 days, i.e. its uncapped candidate
end `start + 15 days` is not cut off by the global end `e`. -/
def nonFinalFull (e : Int) : List (Int × Int) → Bool
  | [] => true
  | (a, _) :: rest =>
    (rest.isEmpty || (min (a + DELTA_SECONDS) e == a + DELTA_SECONDS))
      && nonFinalFull e rest

/-- Value point of a forecast, as decoded from the API's JSON: an interval
and a numeric generation value.  The dates arrive as ISO-8601 strings and
are carried through to the CSV unparsed, so they are strings here; the
numeric value is only carried, never computed with, so a rational carrier
stands in for the JSON number. -/
structure ValuePoint where
  start_date : String
  end_date : String
  value : Rat
deriving DecidableEq, Repr

/-- Forecast object from the API's JSON `forecasts` array. -/
structure Forecast where
  production_type : String
  type : String
  values : List ValuePoint
deriving DecidableEq, Repr

/-- Exceptions raised by the pipeline.  `auth` is the `Auth failed` raise in
`get_token`, `fetch` the `Fetch failed` raise in `get_interval_data`,
`keyError` a Python `KeyError` (missing JSON field or missing dataframe
column). -/
inductive PipelineError where
  | auth (status : Nat) (body : String)
  | fetch (status : Nat) (body : String)
  | keyError (key : String)
deriving DecidableEq, Repr

/-- Model of `requests.Response.ok`: true exactly when the status code is
below 400. -/
def respOk (status : Nat) : Bool := status < 400

/-- Response of the token endpoint as consumed by `get_token`: the HTTP
status, the `access_token` field of the JSON body when present, and the
response text. -/
structure TokenResponse where
  status : Nat
  access_token : Option String
  text : String
deriving DecidableEq, Repr

/-- Model of `get_token()`: on an `ok` response return the JSON body's
`access_token` (a missing field is a `KeyError`); otherwise raise
`Auth failed: {status}, {text}`. -/
def get_token (r : TokenResponse) : Except PipelineError String :=
  if respOk r.status then
    match r.access_token with
    | some tok => .ok tok
    | none => .error (.keyError "access_token")
  else .error (.auth r.status r.text)

/-- Response of the forecast endpoint as consumed by `get_interval_data`:
the HTTP status, the `forecasts` field of the JSON body when present, and
the response text. -/
structure ForecastResponse where
  status : Nat
  forecasts : Option (List Forecast)
  text : String

/-- Model of `get_interval_data(...)`: on an `ok` response return
`response.json().get("forecasts", [])` (the empty list when the key is
absent); otherwise raise `Fetch failed: {status}, {text}`. -/
def get_interval_data (r : ForecastResponse) : Except PipelineError (List Forecast) :=
  if respOk r.status then .ok (r.forecasts.getD [])
  else .error (.fetch r.status r.text)

/-- Model of `get_all_data`: walk the chunked sub-intervals, issuing one
request per chunk (the remote endpoint is modelled as a function `api` from
the chunk's corrected boundaries to the response it returns), concatenating
the per-chunk forecast lists in order, and aborting with the raised error as
soon as any chunk request is not `ok`.  The loop is fuel-bounded exactly as
in `chunks`. -/
def get_all_data (api : Int → Int → ForecastResponse) :
    Nat → Int → Int → Except PipelineError (List Forecast)
  | 0, _, _ => .ok []
  | fuel + 1, interval_start, end_date =>
    if interval_start < end_date then
      let interval_end := min (interval_start + DELTA_SECONDS) end_date
      let corrected := handle_dst interval_start interval_end
      match get_interval_data (api corrected.1 corrected.2) with
      | .error err => .error err
      | .ok data =>
        match get_all_data api fuel corrected.2 end_date with
        | .error err => .error err
        | .ok rest => .ok (data ++ rest)
    else .ok []

/-- Output row appended to `records` in `save_data`: one row per value
point, carrying the parent forecast's `production_type` and `type`. -/
structure Record where
  start_date : String
  end_date : String
  production_type : String
  forecast_type : String
  generation_value : Rat
deriving DecidableEq, Repr

/-- Row built from a forecast and one of its value points, exactly the dict
appended in the inner loop of `save_data`. -/
def mkRecord (f : Forecast) (v : ValuePoint) : Record :=
  { start_date := v.start_date
    end_date := v.end_date
    production_type := f.production_type
    forecast_type := f.type
    generation_value := v.value }

/-- Flattening performed by the two nested `for` loops of `save_data`:
every value of every forecast, in input order. -/
def flattenRecords (data : List Forecast) : List Record :=
  data.flatMap (fun f => f.values.map (mkRecord f))

/-- Lexicographic order on strings as lists of code points: this is how
Python (and hence pandas on an object column of strings) compares the
`start_date` strings. -/
def lexLe : List Char → List Char → Bool
  | [], _ => true
  | _ :: _, [] => false
  | a :: as, b :: bs =>
    if a.toNat < b.toNat then true
    else if b.toNat < a.toNat then false
    else lexLe as bs

/-- Comparison of two rows by the pandas sort column `start_date`. -/
def keyLe (r s : Record) : Bool := lexLe r.start_date.data s.start_date.data

/-- Boolean check that a row's key is at most the key of the head of a
list (vacuously true for the empty list); used to state sortedness. -/
def headLe (r : Record) : List Record → Bool
  | [] => true
  | x :: _ => keyLe r x

/-- Insert a row into an already sorted list of rows, before the first row
whose key it does not exceed; together with `sortRecords` this is a stable
sort by `start_date`.

Modelled from the spec: the source sorts with
`pd.DataFrame(records).sort_values("start_date")`, whose sorting algorithm
is pandas library code not under `src/`; the spec prescribes a stable
ascending sort by `start_date`, which this realises. -/
def insertRecord (r : Record) : List Record → List Record
  | [] => [r]
  | x :: xs => if keyLe r x then r :: x :: xs else x :: insertRecord r xs

/-- Stable ascending sort of the flattened rows by `start_date` (see
`insertRecord` for the modelling note on pandas `sort_values`). -/
def sortRecords : List Record → List Record
  | [] => []
  | x :: xs => insertRecord x (sortRecords xs)

/-- Boolean check that adjacent rows are in ascending `start_date` order. -/
def sortedByStart : List Record → Bool
  | [] => true
  | [_] => true
  | a :: b :: rest => keyLe a b && sortedByStart (b :: rest)

/-!
Model of the timestamp `datetime.now(RTE_TZ).strftime("%Y%m%d_%H%M%S")`
used in the output file name.  `strftime` is C-library code not under
`src/`; it renders the Gregorian calendar fields of the wall-clock reading.
The Gregorian conversion below is modelled directly (century / four-year
block / year decomposition of the 400-year cycle starting 2001-01-01, which
is day 11323 counted from 1970-01-01) and is valid for dates from
2001-01-01 up to 2400-12-31, a range covering every instant the deployed
pipeline can observe as "now". -/

/-- Days since 2001-01-01 (the start of a 400-year Gregorian cycle), given
days since 1970-01-01. -/
def eraDay (z : Nat) : Nat := z - 11323

/-- Completed centuries within the 400-year cycle (0..3); the last century
of the cycle is one day longer, hence the cap. -/
def cOf (z : Nat) : Nat := min (eraDay z / 36524) 3

/-- Day offset within the current century. -/
def r1Of (z : Nat) : Nat := eraDay z - 36524 * cOf z

/-- Completed four-year blocks within the century (0..24). -/
def qOf (z : Nat) : Nat := r1Of z / 1461

/-- Day offset within the current four-year block. -/
def r2Of (z : Nat) : Nat := r1Of z - 1461 * qOf z

/-- Completed years within the four-year block (0..3); the fourth year may
be a leap year, hence the cap. -/
def yOf (z : Nat) : Nat := min (r2Of z / 365) 3

/-- Day of the current year (0-based). -/
def r3Of (z : Nat) : Nat := r2Of z - 365 * yOf z

/-- Calendar year of a day count. -/
def yearOf (z : Nat) : Nat := 2001 + 100 * cOf z + 4 * qOf z + yOf z

/-- One if the current year is a Gregorian leap year, zero otherwise:
the fourth year of a four-year block is leap unless it closes a century,
except that the year closing the whole cycle (a multiple of 400) is leap. -/
def leapOf (z : Nat) : Nat :=
  if yOf z = 3 ∧ (qOf z ≠ 24 ∨ cOf z = 3) then 1 else 0

/-- Month (1..12) from a leap flag and 0-based day of year. -/
def monthFromDoy (leap r3 : Nat) : Nat :=
  if r3 < 31 then 1 else if r3 < 59 + leap then 2 else if r3 < 90 + leap then 3
  else if r3 < 120 + leap then 4 else if r3 < 151 + leap then 5
  else if r3 < 181 + leap then 6 else if r3 < 212 + leap then 7
  else if r3 < 243 + leap then 8 else if r3 < 273 + leap then 9
  else if r3 < 304 + leap then 10 else if r3 < 334 + leap then 11 else 12

/-- First 0-based day of year of a month (1..12), given a leap flag. -/
def monthStart (leap m : Nat) : Nat :=
  if m = 1 then 0 else if m = 2 then 31 else if m = 3 then 59 + leap
  else if m = 4 then 90 + leap else if m = 5 then 120 + leap
  else if m = 6 then 151 + leap else if m = 7 then 181 + leap
  else if m = 8 then 212 + leap else if m = 9 then 243 + leap
  else if m = 10 then 273 + leap else if m = 11 then 304 + leap else 334 + leap

/-- Day of month (1..31) from a leap flag and 0-based day of year. -/
def dayFromDoy (leap r3 : Nat) : Nat := r3 - monthStart leap (monthFromDoy leap r3) + 1

/-- Gregorian `(year, month, day)` of a day count since 1970-01-01, valid
on `[11323, 157420)`, i.e. from 2001-01-01 to 2400-12-31. -/
def civilFromDays (z : Nat) : Nat × Nat × Nat :=
  (yearOf z, monthFromDoy (leapOf z) (r3Of z), dayFromDoy (leapOf z) (r3Of z))

/-- Leap flag of a calendar year (2001..2400). -/
def leapOfYear (year : Nat) : Nat :=
  if (year - 2001) % 4 = 3 ∧ ((year - 2001) % 100 / 4 ≠ 24 ∨ (year - 2001) / 100 = 3)
  then 1 else 0

/-- Inverse of `civilFromDays`: day count since 1970-01-01 of a Gregorian
date with year in 2001..2400. -/
def daysFromCivil (year m d : Nat) : Nat :=
  11323 + 36524 * ((year - 2001) / 100) + 1461 * ((year - 2001) % 100 / 4)
    + 365 * ((year - 2001) % 4)
    + monthStart (leapOfYear year) m
    + (d - 1)

/-- Zero-padded fixed-width decimal rendering of a number, as a list of
digit characters (least significant digit computed first). -/
def digitsPad : Nat → Nat → List Char
  | 0, _ => []
  | w + 1, n => digitsPad w (n / 10) ++ [Char.ofNat (48 + n % 10)]

/-- Decimal value of a list of digit characters; a left inverse of
`digitsPad` used to prove that rendered timestamps determine their
fields. -/
def valOf (cs : List Char) : Nat := cs.foldl (fun a c => a * 10 + (c.toNat - 48)) 0

/-- Characters of `strftime("%Y%m%d_%H%M%S")` applied to a wall-clock
reading given in whole seconds since the epoch of the wall clock. -/
def strftimeChars (wall : Nat) : List Char :=
  let cal := civilFromDays (wall / 86400)
  let sod := wall % 86400
  digitsPad 4 cal.1 ++ digitsPad 2 cal.2.1 ++ digitsPad 2 cal.2.2
    ++ '_' :: (digitsPad 2 (sod / 3600) ++ digitsPad 2 (sod % 3600 / 60)
        ++ digitsPad 2 (sod % 60))

/-- Europe/Paris wall-clock reading, in whole seconds, of an instant given
in milliseconds since the Unix epoch: `datetime.now(RTE_TZ)` converts the
current instant to Europe/Paris and `strftime` renders its wall-clock
fields, discarding sub-second precision. -/
def parisWallSec (nowMs : Int) : Int := nowMs / 1000 + paris_offset (nowMs / 1000)

/-- The timestamp string embedded in an output file name, from the current
time in milliseconds since the Unix epoch. -/
def timestampStr (nowMs : Int) : String := String.mk (strftimeChars (parisWallSec nowMs).toNat)

/-- Output file name `f"{base_filename}_{timestamp}.csv"` of `save_data`
when invoked at instant `nowMs`. -/
def fileNameOf (base_filename : String) (nowMs : Int) : String :=
  base_filename ++ "_" ++ timestampStr nowMs ++ ".csv"

/-- Header row written by `df.to_csv` for the record dictionaries built in
`save_data` (pandas keeps the dict key order as column order). -/
def header : String := "start_date,end_date,production_type,forecast_type,generation_value"

/-- CSV serialization of one row.  The numeric value's textual form is not
at stake in any claim; a plain rendering of the rational carrier stands in
for Python's float formatting. -/
def renderRecord (r : Record) : String :=
  r.start_date ++ "," ++ r.end_date ++ "," ++ r.production_type ++ ","
    ++ r.forecast_type ++ "," ++ toString r.generation_value.num
    ++ "/" ++ toString r.generation_value.den

/-- An output CSV file: its name and its lines (header first). -/
structure CsvFile where
  name : String
  lines : List String
deriving DecidableEq

/-- Model of `save_data(data, base_filename)` invoked at instant `nowMs`
(milliseconds since the Unix epoch): flatten, sort by `start_date`, write
one timestamped CSV file.

Modelled from the spec for the pandas library calls not under `src/`:
`pd.DataFrame(records)` on an empty record list produces a frame with no
columns, so `.sort_values("start_date")` raises `KeyError` and no file is
written; on a nonempty list the sort is the stable ascending sort by
`start_date` prescribed by the spec (see `insertRecord`). -/
def save_data (data : List Forecast) (base_filename : String) (nowMs : Int) :
    Except PipelineError CsvFile :=
  let records := flattenRecords data
  if records.isEmpty then .error (.keyError "start_date")
  else
    .ok { name := fileNameOf base_filename nowMs
          lines := header :: (sortRecords records).map renderRecord }

/-- Model of one `run_pipeline()` invocation: acquire a token, fetch the
full configured range for wind then solar (the two forecast endpoints are
modelled as functions from corrected chunk boundaries to responses), then
write the two CSV files.  Any raised error aborts the run: a `.error`
result means no output file was written for either production type. -/
def run_pipeline (tokenResp : TokenResponse)
    (apiWind apiSolar : Int → Int → ForecastResponse) (fuel : Nat)
    (nowWind nowSolar : Int) : Except PipelineError (CsvFile × CsvFile) := do
  let _token ← get_token tokenResp
  let wind_data ← get_all_data apiWind fuel START_DATE END_DATE
  let solar_data ← get_all_data apiSolar fuel START_DATE END_DATE
  let windFile ← save_data wind_data "electricity_generation_wind" nowWind
  let solarFile ← save_data solar_data "electricity_generation_solar" nowSolar
  return (windFile, solarFile)

/-!
Helper lemmas.
-/

theorem chunks_nil (fuel : Nat) (s e : Int) (h : ¬ s < e) : chunks fuel s e = [] := by
  cases fuel with
  | zero => rfl
  | succ fuel => rw [chunks, if_neg h]

theorem dst_eq_of_noTransition {s e t : Int} (h : noTransition s e = true)
    (h1 : s ≤ t) (h2 : t ≤ e) : dst t = dst s := by
  unfold noTransition at h
  simp only [Bool.or_eq_true, Bool.and_eq_true, decide_eq_true_eq] at h
  by_cases c1 : 1711846800 ≤ t ∧ t < 1729990800 <;>
    by_cases c2 : 1711846800 ≤ s ∧ s < 1729990800 <;>
    simp only [dst, c1, c2, if_true, if_false, reduceIte] <;>
    omega

theorem noTransition_shrink {s e s' e' : Int} (h : noTransition s e = true)
    (h1 : s ≤ s') (h2 : e' ≤ e) : noTransition s' e' = true := by
  unfold noTransition at *
  simp only [Bool.or_eq_true, Bool.and_eq_true, decide_eq_true_eq] at h ⊢
  omega

theorem chunks_cover (fuel : Nat) : ∀ s e : Int, s < e → noTransition s e = true →
    e - s ≤ DELTA_SECONDS * fuel → coversB s e (chunks fuel s e) = true := by
  induction fuel with
  | zero =>
    intro s e h1 _ h3
    unfold DELTA_SECONDS at h3
    omega
  | succ fuel ih =>
    intro s e h1 h2 h3
    rw [chunks, if_pos h1]
    have hne1 : s < min (s + DELTA_SECONDS) e := by
      unfold DELTA_SECONDS
      omega
    have hne2 : min (s + DELTA_SECONDS) e ≤ e := min_le_right _ _
    have hdst : dst (min (s + DELTA_SECONDS) e) = dst s :=
      dst_eq_of_noTransition h2 (le_of_lt hne1) hne2
    show coversB s e
        ((s, min (s + DELTA_SECONDS) e + dst s - dst (min (s + DELTA_SECONDS) e))
          :: chunks fuel
            (min (s + DELTA_SECONDS) e + dst s - dst (min (s + DELTA_SECONDS) e)) e) = true
    rw [hdst]
    have hce : min (s + DELTA_SECONDS) e + dst s - dst s = min (s + DELTA_SECONDS) e := by
      omega
    rw [hce]
    by_cases hend : e ≤ s + DELTA_SECONDS
    · have hmin : min (s + DELTA_SECONDS) e = e := min_eq_right (by omega)
      rw [hmin, chunks_nil fuel e e (by omega)]
      simp [coversB, h1]
    · have hmin : min (s + DELTA_SECONDS) e = s + DELTA_SECONDS := min_eq_left (by omega)
      rw [hmin]
      have hrec := ih (s + DELTA_SECONDS) e (by omega)
        (noTransition_shrink h2 (by unfold DELTA_SECONDS; omega) le_rfl)
        (by unfold DELTA_SECONDS at h3 ⊢; omega)
      simp [coversB, hrec, hne1, hmin ▸ hne1]

theorem chunks_nonFinalFull (fuel : Nat) : ∀ s e : Int, noTransition s e = true →
    nonFinalFull e (chunks fuel s e) = true := by
  induction fuel with
  | zero => intro s e _; rfl
  | succ fuel ih =>
    intro s e h2
    by_cases h1 : s < e
    · rw [chunks, if_pos h1]
      have hne1 : s < min (s + DELTA_SECONDS) e := by
        unfold DELTA_SECONDS
        omega
      have hdst : dst (min (s + DELTA_SECONDS) e) = dst s :=
        dst_eq_of_noTransition h2 (le_of_lt hne1) (min_le_right _ _)
      show nonFinalFull e
          ((s, min (s + DELTA_SECONDS) e + dst s - dst (min (s + DELTA_SECONDS) e))
            :: chunks fuel
              (min (s + DELTA_SECONDS) e + dst s - dst (min (s + DELTA_SECONDS) e)) e) = true
      rw [hdst]
      have hce : min (s + DELTA_SECONDS) e + dst s - dst s = min (s + DELTA_SECONDS) e := by
        omega
      rw [hce]
      by_cases hend : e ≤ s + DELTA_SECONDS
      · have hmin : min (s + DELTA_SECONDS) e = e := min_eq_right (by omega)
        rw [hmin, chunks_nil fuel e e (by omega)]
        rfl
      · have hmin : min (s + DELTA_SECONDS) e = s + DELTA_SECONDS := min_eq_left (by omega)
        rw [hmin]
        have hrec := ih (s + DELTA_SECONDS) e
          (noTransition_shrink h2 (by unfold DELTA_SECONDS; omega) le_rfl)
        simp [nonFinalFull, hrec, hmin]
    · rw [chunks_nil _ _ _ h1]
      rfl

theorem chunks_succ (fuel : Nat) (s e : Int) (h : s < e) :
    chunks (fuel + 1) s e
      = (s, min (s + DELTA_SECONDS) e + dst s - dst (min (s + DELTA_SECONDS) e))
        :: chunks fuel
          (min (s + DELTA_SECONDS) e + dst s - dst (min (s + DELTA_SECONDS) e)) e := by
  rw [chunks, if_pos h]
  rfl

theorem get_all_data_succ (api : Int → Int → ForecastResponse) (fuel : Nat) (s e : Int)
    (h : s < e) :
    get_all_data api (fuel + 1) s e
      = match get_interval_data (api s (min (s + DELTA_SECONDS) e + dst s
          - dst (min (s + DELTA_SECONDS) e))) with
        | Except.error err => Except.error err
        | Except.ok data =>
          match get_all_data api fuel (min (s + DELTA_SECONDS) e + dst s
              - dst (min (s + DELTA_SECONDS) e)) e with
          | Except.error err => Except.error err
          | Except.ok rest => Except.ok (data ++ rest) := by
  rw [get_all_data, if_pos h]
  rfl

theorem get_all_data_error (api : Int → Int → ForecastResponse) (fuel : Nat) :
    ∀ s e : Int, (∃ c ∈ chunks fuel s e, respOk (api c.1 c.2).status = false) →
    ∃ c ∈ chunks fuel s e, respOk (api c.1 c.2).status = false ∧
      get_all_data api fuel s e
        = Except.error (.fetch (api c.1 c.2).status (api c.1 c.2).text) := by
  induction fuel with
  | zero =>
    intro s e h
    obtain ⟨c, hc, _⟩ := h
    simp [chunks] at hc
  | succ fuel ih =>
    intro s e h
    obtain ⟨c, hc, hbad⟩ := h
    by_cases h1 : s < e
    · rw [chunks_succ fuel s e h1] at hc ⊢
      rw [get_all_data_succ api fuel s e h1]
      by_cases hfirst :
          respOk (api s (min (s + DELTA_SECONDS) e + dst s
            - dst (min (s + DELTA_SECONDS) e))).status = false
      · refine ⟨(s, min (s + DELTA_SECONDS) e + dst s - dst (min (s + DELTA_SECONDS) e)),
          List.mem_cons_self _ _, hfirst, ?_⟩
        rw [get_interval_data, if_neg (by simp [hfirst])]
      · cases hc with
        | head =>
          exact absurd hbad hfirst
        | tail _ htail =>
          obtain ⟨c', hc', hbad', herr⟩ := ih _ e ⟨c, htail, hbad⟩
          refine ⟨c', List.mem_cons_of_mem _ hc', hbad', ?_⟩
          simp only [Bool.not_eq_false] at hfirst
          rw [get_interval_data, if_pos (by simp [hfirst]), herr]
    · rw [chunks_nil _ _ _ h1] at hc
      simp at hc

theorem lexLe_refl (a : List Char) : lexLe a a = true := by
  induction a with
  | nil => rfl
  | cons x xs ih => simp [lexLe, ih]

theorem lexLe_total (a : List Char) : ∀ b, lexLe a b = true ∨ lexLe b a = true := by
  induction a with
  | nil => intro b; left; rfl
  | cons x xs ih =>
    intro b
    cases b with
    | nil => right; rfl
    | cons y ys =>
      by_cases h1 : x.toNat < y.toNat
      · left; simp [lexLe, h1]
      · by_cases h2 : y.toNat < x.toNat
        · right; simp [lexLe, h2]
        · rcases ih ys with h | h <;> [left; right] <;> simp [lexLe, h1, h2, h]

theorem keyLe_total (r x : Record) (h : keyLe r x = false) : keyLe x r = true := by
  rcases lexLe_total r.start_date.data x.start_date.data with h' | h'
  · rw [keyLe] at h
    rw [h'] at h
    cases h
  · exact h'

theorem keyLe_false_ne (r x : Record) (h : keyLe r x = false) :
    (r.start_date == x.start_date) = false := by
  by_cases he : r.start_date = x.start_date
  · rw [keyLe, he] at h
    rw [lexLe_refl] at h
    cases h
  · simp [he]

theorem headLe_insertRecord (x r : Record) (l : List Record) (hxr : keyLe x r = true)
    (hl : headLe x l = true) : headLe x (insertRecord r l) = true := by
  cases l with
  | nil => simpa [insertRecord, headLe] using hxr
  | cons y ys =>
    rw [insertRecord]
    split
    · simpa [headLe] using hxr
    · simpa [headLe] using hl

theorem sortedByStart_cons (x : Record) (l : List Record) :
    sortedByStart (x :: l) = (headLe x l && sortedByStart l) := by
  cases l <;> simp [sortedByStart, headLe]

theorem sortedByStart_insertRecord (r : Record) (l : List Record)
    (h : sortedByStart l = true) : sortedByStart (insertRecord r l) = true := by
  induction l with
  | nil => rfl
  | cons x xs ih =>
    rw [sortedByStart_cons, Bool.and_eq_true] at h
    rw [insertRecord]
    by_cases hr : keyLe r x = true
    · rw [if_pos hr, sortedByStart_cons, sortedByStart_cons, h.1, h.2,
          show headLe r (x :: xs) = keyLe r x from rfl, hr]
      rfl
    · rw [if_neg hr, sortedByStart_cons]
      have hxr : keyLe x r = true := keyLe_total r x (by simpa using hr)
      simp [headLe_insertRecord x r xs hxr h.1, ih h.2]

theorem sortedByStart_sortRecords (l : List Record) :
    sortedByStart (sortRecords l) = true := by
  induction l with
  | nil => rfl
  | cons x xs ih => exact sortedByStart_insertRecord x (sortRecords xs) ih

theorem length_insertRecord (r : Record) (l : List Record) :
    (insertRecord r l).length = l.length + 1 := by
  induction l with
  | nil => rfl
  | cons x xs ih =>
    rw [insertRecord]
    split
    · rfl
    · simp [ih]

theorem length_sortRecords (l : List Record) : (sortRecords l).length = l.length := by
  induction l with
  | nil => rfl
  | cons x xs ih => simp [sortRecords, length_insertRecord, ih]

theorem mem_insertRecord (x r : Record) (l : List Record) :
    x ∈ insertRecord r l ↔ x = r ∨ x ∈ l := by
  induction l with
  | nil => simp [insertRecord]
  | cons y ys ih =>
    rw [insertRecord]
    split
    · simp
    · simp only [List.mem_cons, ih]
      tauto

theorem mem_sortRecords (x : Record) (l : List Record) :
    x ∈ sortRecords l ↔ x ∈ l := by
  induction l with
  | nil => simp [sortRecords]
  | cons y ys ih => simp [sortRecords, mem_insertRecord, ih]

theorem filter_insertRecord (r : Record) (l : List Record) (k : String) :
    (insertRecord r l).filter (fun x => x.start_date == k)
      = if r.start_date == k
        then r :: l.filter (fun x => x.start_date == k)
        else l.filter (fun x => x.start_date == k) := by
  induction l with
  | nil => cases hk : r.start_date == k <;> simp [insertRecord, List.filter_cons, hk]
  | cons x xs ih =>
    rw [insertRecord]
    by_cases hr : keyLe r x = true
    · rw [if_pos hr]
      cases hk : r.start_date == k <;> simp [List.filter_cons, hk]
    · rw [if_neg hr]
      have hne : (r.start_date == x.start_date) = false := keyLe_false_ne r x (by simpa using hr)
      rw [List.filter_cons, ih]
      cases hk : r.start_date == k with
      | true =>
        have hxk : (x.start_date == k) = false := by
          have h1 : r.start_date = k := by simpa using hk
          have h2 : r.start_date ≠ x.start_date := by simpa using hne
          simp only [beq_eq_false_iff_ne, ne_eq]
          intro hxx
          exact h2 (h1.trans hxx.symm)
        simp [List.filter_cons, hxk, hk]
      | false =>
        simp [List.filter_cons, hk]

theorem filter_sortRecords (l : List Record) (k : String) :
    (sortRecords l).filter (fun x => x.start_date == k)
      = l.filter (fun x => x.start_date == k) := by
  induction l with
  | nil => rfl
  | cons x xs ih =>
    rw [sortRecords, filter_insertRecord, List.filter_cons, ih]

theorem flattenRecords_length (data : List Forecast) (M : Nat)
    (h : ∀ f ∈ data, f.values.length = M) :
    (flattenRecords data).length = data.length * M := by
  induction data with
  | nil => simp [flattenRecords]
  | cons f fs ih =>
    rw [flattenRecords] at ih ⊢
    rw [List.flatMap_cons, List.length_append, List.length_map,
      h f (List.mem_cons_self _ _), ih (fun g hg => h g (List.mem_cons_of_mem _ hg))]
    simp [List.length_cons]
    ring

theorem mem_flattenRecords (r : Record) (data : List Forecast) :
    r ∈ flattenRecords data ↔ ∃ f ∈ data, ∃ v ∈ f.values, r = mkRecord f v := by
  rw [flattenRecords]
  simp only [List.mem_flatMap, List.mem_map]
  constructor
  · rintro ⟨f, hf, v, hv, hr⟩
    exact ⟨f, hf, v, hv, hr.symm⟩
  · rintro ⟨f, hf, v, hv, hr⟩
    exact ⟨f, hf, v, hv, hr.symm⟩

theorem leapOf_le (z : Nat) : leapOf z ≤ 1 := by
  unfold leapOf
  split <;> omega

theorem decomp_aux (n c r1 q r2 y r3 leap : Nat)
    (hn : n < 146097)
    (hc : c = min (n / 36524) 3)
    (hr1 : r1 = n - 36524 * c)
    (hq : q = r1 / 1461)
    (hr2 : r2 = r1 - 1461 * q)
    (hy : y = min (r2 / 365) 3)
    (hr3 : r3 = r2 - 365 * y)
    (hleap : leap = if y = 3 ∧ (q ≠ 24 ∨ c = 3) then 1 else 0) :
    36524 * c + 1461 * q + 365 * y + r3 = n ∧ c ≤ 3 ∧ q ≤ 24 ∧ y ≤ 3 ∧ r3 ≤ 364 + leap := by
  split at hleap <;> omega

theorem decomp (z : Nat) (h1 : 11323 ≤ z) (h2 : z < 157420) :
    36524 * cOf z + 1461 * qOf z + 365 * yOf z + r3Of z = z - 11323
    ∧ cOf z ≤ 3 ∧ qOf z ≤ 24 ∧ yOf z ≤ 3 ∧ r3Of z ≤ 364 + leapOf z := by
  have hn : eraDay z < 146097 := by
    unfold eraDay
    omega
  have h := decomp_aux (eraDay z) (cOf z) (r1Of z) (qOf z) (r2Of z) (yOf z) (r3Of z) (leapOf z)
    hn rfl rfl rfl rfl rfl rfl rfl
  unfold eraDay at h
  omega

theorem monthStart_1 (l : Nat) : monthStart l 1 = 0 := rfl
theorem monthStart_2 (l : Nat) : monthStart l 2 = 31 := rfl
theorem monthStart_3 (l : Nat) : monthStart l 3 = 59 + l := rfl
theorem monthStart_4 (l : Nat) : monthStart l 4 = 90 + l := rfl
theorem monthStart_5 (l : Nat) : monthStart l 5 = 120 + l := rfl
theorem monthStart_6 (l : Nat) : monthStart l 6 = 151 + l := rfl
theorem monthStart_7 (l : Nat) : monthStart l 7 = 181 + l := rfl
theorem monthStart_8 (l : Nat) : monthStart l 8 = 212 + l := rfl
theorem monthStart_9 (l : Nat) : monthStart l 9 = 243 + l := rfl
theorem monthStart_10 (l : Nat) : monthStart l 10 = 273 + l := rfl
theorem monthStart_11 (l : Nat) : monthStart l 11 = 304 + l := rfl
theorem monthStart_12 (l : Nat) : monthStart l 12 = 334 + l := rfl

set_option maxHeartbeats 1000000 in
theorem cascade (leap r3 : Nat) (hl : leap ≤ 1) (hr : r3 ≤ 364 + leap) :
    monthStart leap (monthFromDoy leap r3) + (dayFromDoy leap r3 - 1) = r3
    ∧ 1 ≤ monthFromDoy leap r3 ∧ monthFromDoy leap r3 ≤ 12
    ∧ 1 ≤ dayFromDoy leap r3 ∧ dayFromDoy leap r3 ≤ 31 := by
  unfold dayFromDoy monthFromDoy
  repeat' split
  all_goals
    simp only [monthStart_1, monthStart_2, monthStart_3, monthStart_4, monthStart_5,
      monthStart_6, monthStart_7, monthStart_8, monthStart_9, monthStart_10,
      monthStart_11, monthStart_12]
  all_goals omega

theorem civil_roundtrip (z : Nat) (h1 : 11323 ≤ z) (h2 : z < 157420) :
    daysFromCivil (civilFromDays z).1 (civilFromDays z).2.1 (civilFromDays z).2.2 = z := by
  obtain ⟨hsum, hc, hq, hy, hr3⟩ := decomp z h1 h2
  have hl := leapOf_le z
  obtain ⟨hcas, hm1, hm2, hd1, hd2⟩ := cascade (leapOf z) (r3Of z) hl hr3
  have e1 : (2001 + 100 * cOf z + 4 * qOf z + yOf z - 2001) / 100 = cOf z := by omega
  have e2 : (2001 + 100 * cOf z + 4 * qOf z + yOf z - 2001) % 100 / 4 = qOf z := by omega
  have e3 : (2001 + 100 * cOf z + 4 * qOf z + yOf z - 2001) % 4 = yOf z := by omega
  have hleapEq : leapOfYear (yearOf z) = leapOf z := by
    unfold leapOfYear yearOf
    simp only [e1, e2, e3]
    by_cases h : yOf z = 3 ∧ (qOf z ≠ 24 ∨ cOf z = 3) <;> simp [h, leapOf]
  show daysFromCivil (yearOf z) (monthFromDoy (leapOf z) (r3Of z))
      (dayFromDoy (leapOf z) (r3Of z)) = z
  unfold daysFromCivil
  rw [hleapEq]
  unfold yearOf
  simp only [e1, e2, e3]
  omega

theorem civil_bounds (z : Nat) (h1 : 11323 ≤ z) (h2 : z < 157420) :
    2001 ≤ (civilFromDays z).1 ∧ (civilFromDays z).1 ≤ 2400
    ∧ 1 ≤ (civilFromDays z).2.1 ∧ (civilFromDays z).2.1 ≤ 12
    ∧ 1 ≤ (civilFromDays z).2.2 ∧ (civilFromDays z).2.2 ≤ 31 := by
  obtain ⟨hsum, hc, hq, hy, hr3⟩ := decomp z h1 h2
  obtain ⟨hcas, hm1, hm2, hd1, hd2⟩ := cascade (leapOf z) (r3Of z) (leapOf_le z) hr3
  refine ⟨?_, ?_, hm1, hm2, hd1, hd2⟩
  · show 2001 ≤ yearOf z
    unfold yearOf
    omega
  · show yearOf z ≤ 2400
    unfold yearOf
    omega

theorem toNat_ofNat_small (n : Nat) (h : n < 55296) : (Char.ofNat n).toNat = n := by
  have hv : n.isValidChar := Or.inl h
  rw [Char.ofNat, dif_pos hv]
  rfl

theorem valOf_append_digit (ds : List Char) (c : Char) :
    valOf (ds ++ [c]) = valOf ds * 10 + (c.toNat - 48) := by
  unfold valOf
  rw [List.foldl_append]
  rfl

theorem digitsPad_length (w n : Nat) : (digitsPad w n).length = w := by
  induction w generalizing n with
  | zero => rfl
  | succ w ih => simp [digitsPad, ih]

theorem valOf_digitsPad (w n : Nat) (h : n < 10 ^ w) : valOf (digitsPad w n) = n := by
  induction w generalizing n with
  | zero => interval_cases n; rfl
  | succ w ih =>
    rw [pow_succ] at h
    rw [digitsPad, valOf_append_digit, ih (n / 10) (by omega),
        toNat_ofNat_small (48 + n % 10) (by omega)]
    omega

theorem strftimeChars_eq (w : Nat) : strftimeChars w =
    digitsPad 4 (civilFromDays (w / 86400)).1
      ++ (digitsPad 2 (civilFromDays (w / 86400)).2.1
      ++ (digitsPad 2 (civilFromDays (w / 86400)).2.2
      ++ ('_' :: (digitsPad 2 (w % 86400 / 3600)
      ++ (digitsPad 2 (w % 86400 % 3600 / 60)
      ++ digitsPad 2 (w % 86400 % 60)))))) := by
  unfold strftimeChars
  simp [List.append_assoc]

theorem strftimeChars_inj (a b : Nat)
    (ha1 : 978307200 ≤ a) (ha2 : a < 13601088000)
    (hb1 : 978307200 ≤ b) (hb2 : b < 13601088000)
    (h : strftimeChars a = strftimeChars b) : a = b := by
  rw [strftimeChars_eq, strftimeChars_eq] at h
  have hza1 : 11323 ≤ a / 86400 := by omega
  have hza2 : a / 86400 < 157420 := by omega
  have hzb1 : 11323 ≤ b / 86400 := by omega
  have hzb2 : b / 86400 < 157420 := by omega
  obtain ⟨hy1a, hy2a, hm1a, hm2a, hd1a, hd2a⟩ := civil_bounds (a / 86400) hza1 hza2
  obtain ⟨hy1b, hy2b, hm1b, hm2b, hd1b, hd2b⟩ := civil_bounds (b / 86400) hzb1 hzb2
  obtain ⟨hy, h⟩ := List.append_inj h (by rw [digitsPad_length, digitsPad_length])
  obtain ⟨hm, h⟩ := List.append_inj h (by rw [digitsPad_length, digitsPad_length])
  obtain ⟨hd, h⟩ := List.append_inj h (by rw [digitsPad_length, digitsPad_length])
  rw [List.cons.injEq] at h
  obtain ⟨hh, hmin, hsec⟩ :
      digitsPad 2 (a % 86400 / 3600) = digitsPad 2 (b % 86400 / 3600)
      ∧ digitsPad 2 (a % 86400 % 3600 / 60) = digitsPad 2 (b % 86400 % 3600 / 60)
      ∧ digitsPad 2 (a % 86400 % 60) = digitsPad 2 (b % 86400 % 60) := by
    obtain ⟨hh, h⟩ := List.append_inj h.2 (by rw [digitsPad_length, digitsPad_length])
    obtain ⟨hmin, hsec⟩ := List.append_inj h (by rw [digitsPad_length, digitsPad_length])
    exact ⟨hh, hmin, hsec⟩
  have p4 : (10 : Nat) ^ 4 = 10000 := by norm_num
  have p2 : (10 : Nat) ^ 2 = 100 := by norm_num
  have ey : (civilFromDays (a / 86400)).1 = (civilFromDays (b / 86400)).1 := by
    have hv := congrArg valOf hy
    rwa [valOf_digitsPad 4 _ (by rw [p4]; omega), valOf_digitsPad 4 _ (by rw [p4]; omega)] at hv
  have em : (civilFromDays (a / 86400)).2.1 = (civilFromDays (b / 86400)).2.1 := by
    have hv := congrArg valOf hm
    rwa [valOf_digitsPad 2 _ (by rw [p2]; omega), valOf_digitsPad 2 _ (by rw [p2]; omega)] at hv
  have ed : (civilFromDays (a / 86400)).2.2 = (civilFromDays (b / 86400)).2.2 := by
    have hv := congrArg valOf hd
    rwa [valOf_digitsPad 2 _ (by rw [p2]; omega), valOf_digitsPad 2 _ (by rw [p2]; omega)] at hv
  have eh : a % 86400 / 3600 = b % 86400 / 3600 := by
    have hv := congrArg valOf hh
    rwa [valOf_digitsPad 2 _ (by rw [p2]; omega), valOf_digitsPad 2 _ (by rw [p2]; omega)] at hv
  have emin : a % 86400 % 3600 / 60 = b % 86400 % 3600 / 60 := by
    have hv := congrArg valOf hmin
    rwa [valOf_digitsPad 2 _ (by rw [p2]; omega), valOf_digitsPad 2 _ (by rw [p2]; omega)] at hv
  have es : a % 86400 % 60 = b % 86400 % 60 := by
    have hv := congrArg valOf hsec
    rwa [valOf_digitsPad 2 _ (by rw [p2]; omega), valOf_digitsPad 2 _ (by rw [p2]; omega)] at hv
  have hdays : a / 86400 = b / 86400 := by
    have ra := civil_roundtrip (a / 86400) hza1 hza2
    have rb := civil_roundtrip (b / 86400) hzb1 hzb2
    rw [ey, em, ed] at ra
    exact ra.symm.trans rb
  omega

theorem data_append (a b : String) : (a ++ b).data = a.data ++ b.data := by
  cases a
  cases b
  rfl

theorem fileNameOf_eq_iff (base : String) (t1 t2 : Int)
    (h11 : 978307200 ≤ parisWallSec t1) (h12 : parisWallSec t1 < 13601088000)
    (h21 : 978307200 ≤ parisWallSec t2) (h22 : parisWallSec t2 < 13601088000) :
    fileNameOf base t1 = fileNameOf base t2 ↔ parisWallSec t1 = parisWallSec t2 := by
  constructor
  · intro h
    unfold fileNameOf timestampStr at h
    have hd := congrArg String.data h
    simp only [data_append, List.append_assoc] at hd
    have hd2 := List.append_cancel_left hd
    have hd3 := List.append_cancel_left hd2
    have hchars : strftimeChars (parisWallSec t1).toNat
        = strftimeChars (parisWallSec t2).toNat := List.append_cancel_right hd3
    have := strftimeChars_inj (parisWallSec t1).toNat (parisWallSec t2).toNat
      (by omega) (by omega) (by omega) (by omega) hchars
    omega
  · intro h
    unfold fileNameOf timestampStr
    rw [h]

theorem chunks_head (fuel : Nat) (s e : Int) (p : Int × Int) (rest : List (Int × Int))
    (h : chunks fuel s e = p :: rest) : p.1 = s := by
  cases fuel with
  | zero => simp [chunks] at h
  | succ fuel =>
    by_cases h1 : s < e
    · rw [chunks_succ fuel s e h1] at h
      injection h with h2 _
      rw [← h2]
    · rw [chunks_nil _ _ _ h1] at h
      cases h

theorem chunks_startsAt (fuel : Nat) (s e : Int) : startsAt s (chunks fuel s e) = true := by
  cases fuel with
  | zero => rfl
  | succ fuel =>
    by_cases h1 : s < e
    · rw [chunks_succ fuel s e h1]
      simp [startsAt]
    · rw [chunks_nil _ _ _ h1]
      rfl

theorem chunks_chained (fuel : Nat) : ∀ s e : Int, chained (chunks fuel s e) = true := by
  induction fuel with
  | zero => intro s e; rfl
  | succ fuel ih =>
    intro s e
    by_cases h1 : s < e
    · rw [chunks_succ fuel s e h1]
      cases hc : chunks fuel
          (min (s + DELTA_SECONDS) e + dst s - dst (min (s + DELTA_SECONDS) e)) e with
      | nil => rfl
      | cons b rest =>
        have hb := chunks_head fuel _ e b rest hc
        rw [chained, ← hc, ih, hb]
        simp
    · rw [chunks_nil _ _ _ h1]
      rfl

theorem get_all_data_nil (api : Int → Int → ForecastResponse) (fuel : Nat) (s e : Int)
    (h : ¬ s < e) : get_all_data api fuel s e = .ok [] := by
  cases fuel with
  | zero => rfl
  | succ fuel => rw [get_all_data, if_neg h]

theorem flattenRecords_eq_nil (data : List Forecast) (h : ∀ f ∈ data, f.values = []) :
    flattenRecords data = [] := by
  induction data with
  | nil => rfl
  | cons f fs ih =>
    rw [flattenRecords, List.flatMap_cons, h f (List.mem_cons_self _ _)]
    exact ih (fun g hg => h g (List.mem_cons_of_mem _ hg))

/-!
Claim theorems.
-/

/-- C1 (counterexample): the coverage claim is false as stated.  For the
range from 2024-10-27 00:00 UTC (instant 1729987200, still on summer time)
to 2024-10-27 02:00 UTC (instant 1729994400, winter time), the single
generated chunk crosses the fall-back transition, so its DST-corrected end
is `end + 1h = 1729998000`: the loop then stops (the next start is past
`end`), the last chunk does not end at `end`, and the sub-intervals cover
one hour beyond the requested range.  (The Python loop terminates after
this one iteration, so any fuel of at least one reproduces it exactly.) -/
theorem C1_counterexample :
    (1729987200 : Int) < 1729994400
    ∧ chunks 3 1729987200 1729994400 = [(1729987200, 1729998000)]
    ∧ coversB 1729987200 1729994400 (chunks 3 1729987200 1729994400) = false
    ∧ ((1729998000 : Int) ≠ 1729994400) := by
  refine ⟨by decide, by decide, by decide, by decide⟩

/-- C1 (amended): unconditionally, the first chunk starts at `start` and
each chunk's DST-corrected end equals the next chunk's start; and whenever
the range `[start, end]` does not straddle a DST transition (so no chunk
boundary crosses one) and the fuel covers the loop's iterations, the chunk
sequence covers `[start, end)` exactly once — nonempty consecutive chunks
from `start` to `end` with no gaps and no overlaps. -/
theorem C1_amended :
    (∀ (fuel : Nat) (s e : Int),
      startsAt s (chunks fuel s e) = true ∧ chained (chunks fuel s e) = true)
    ∧ (∀ (fuel : Nat) (s e : Int), s < e → noTransition s e = true →
        e - s ≤ DELTA_SECONDS * fuel → coversB s e (chunks fuel s e) = true) :=
  ⟨fun fuel s e => ⟨chunks_startsAt fuel s e, chunks_chained fuel s e⟩,
   fun fuel s e h1 h2 h3 => chunks_cover fuel s e h1 h2 h3⟩

/-- C1 (witness): the amended coverage theorem applied to the concrete
31-day January 2024 range, whose hypotheses hold by computation. -/
theorem C1_witness :
    (startsAt 1704063600 (chunks 5 1704063600 1706742000) = true
      ∧ chained (chunks 5 1704063600 1706742000) = true)
    ∧ coversB 1704063600 1706742000 (chunks 5 1704063600 1706742000) = true :=
  ⟨C1_amended.1 5 1704063600 1706742000,
   C1_amended.2 5 1704063600 1706742000 (by decide) (by decide) (by decide)⟩

/-- C2: `handle_dst` converts both boundaries to Europe/Paris (an
instant-preserving operation, so the start instant is unchanged) and
returns an end equal to the naive end plus `dst(start) - dst(end)`; when
the chunk crosses a single DST transition (`dst start ≠ dst end`) the
corrected end differs from the naive end by exactly the transition's
one-hour offset change, and the corrected end's Paris wall-clock reading
(which keeps the naive end's offset, as pytz arithmetic does not
renormalise) lies exactly `end - start` wall-clock seconds after the
start's reading, preserving the chunk's nominal duration; with no
transition (`dst start = dst end`) the end is unchanged. -/
theorem C2_handle_dst : ∀ s e : Int,
    (handle_dst s e).1 = s
    ∧ (handle_dst s e).2 = e + (dst s - dst e)
    ∧ (dst s = dst e → (handle_dst s e).2 = e)
    ∧ (dst s ≠ dst e →
        ((handle_dst s e).2 - e = 3600 ∨ (handle_dst s e).2 - e = -3600))
    ∧ ((handle_dst s e).2 + paris_offset e) - (s + paris_offset s) = e - s := by
  intro s e
  have hs : dst s = 0 ∨ dst s = 3600 := by
    unfold dst
    split
    · right; rfl
    · left; rfl
  have he : dst e = 0 ∨ dst e = 3600 := by
    unfold dst
    split
    · right; rfl
    · left; rfl
  refine ⟨rfl, ?_, ?_, ?_, ?_⟩
  · show e + dst s - dst e = e + (dst s - dst e)
    omega
  · intro h
    show e + dst s - dst e = e
    omega
  · intro h
    show e + dst s - dst e - e = 3600 ∨ e + dst s - dst e - e = -3600
    omega
  · show (e + dst s - dst e + (3600 + dst e)) - (s + (3600 + dst s)) = e - s
    omega

/-- C2 (witness): the DST-correction theorem applied to the 2024 chunk
from 2024-03-30 00:00 UTC to 2024-04-01 00:00 UTC, which crosses the
spring-forward transition: the corrected end is one hour before the naive
end. -/
theorem C2_witness :
    dst 1711756800 ≠ dst 1711929600
    ∧ ((handle_dst 1711756800 1711929600).2 - 1711929600 = 3600
        ∨ (handle_dst 1711756800 1711929600).2 - 1711929600 = -3600)
    ∧ (handle_dst 1711756800 1711929600).2
        = 1711929600 + (dst 1711756800 - dst 1711929600) :=
  ⟨by decide, (C2_handle_dst 1711756800 1711929600).2.2.2.1 (by decide),
   (C2_handle_dst 1711756800 1711929600).2.1⟩

/-- C3 (counterexample): the flattening claim is false as stated for
`M = 0`: with one forecast carrying zero value points the writer does not
produce `N x M = 0` rows — the sort on the absent `start_date` column of
the empty record collection raises instead, and no file is written. -/
theorem C3_counterexample :
    save_data [⟨"WIND_ONSHORE", "CURRENT", []⟩] "electricity_generation_wind" 0
      = .error (.keyError "start_date")
    ∧ (1 * 0 = 0) := by
  refine ⟨rfl, rfl⟩

/-- C3 (amended): for a nonempty input (at least one forecast, each
carrying the same positive number `M` of value points), `save_data`
produces a file whose lines are the header row followed by exactly
`N * M` data rows; the rows are the flattened records sorted by
`start_date` ascending with a stable sort (rows with equal `start_date`
keep their original relative order, stated as preservation of every
equal-key fibre of the collection), and every row carries its parent
forecast's `production_type` and `type` together with its value point's
fields.  (The sort itself is modelled from the spec: pandas
`sort_values` is library code not under `src/`.) -/
theorem C3_save_data (data : List Forecast) (base : String) (t : Int) (M : Nat)
    (hM : ∀ f ∈ data, f.values.length = M) (hne : data ≠ []) (hM0 : M ≠ 0) :
    ∃ file, save_data data base t = .ok file
      ∧ file.lines = header :: (sortRecords (flattenRecords data)).map renderRecord
      ∧ file.lines.length = 1 + data.length * M
      ∧ sortedByStart (sortRecords (flattenRecords data)) = true
      ∧ (∀ k : String, (sortRecords (flattenRecords data)).filter (fun r => r.start_date == k)
          = (flattenRecords data).filter (fun r => r.start_date == k))
      ∧ (∀ r ∈ sortRecords (flattenRecords data), ∃ f ∈ data, ∃ v ∈ f.values, r = mkRecord f v) := by
  have hlen := flattenRecords_length data M hM
  have hflatne : flattenRecords data ≠ [] := by
    intro hnil
    rw [hnil] at hlen
    have hN : data.length ≠ 0 := by
      cases data with
      | nil => exact absurd rfl hne
      | cons f fs => simp
    simp only [List.length_nil] at hlen
    exact hM0 (by
      rcases Nat.mul_eq_zero.mp hlen.symm with h | h
      · exact absurd h hN
      · exact h)
  have hemp : (flattenRecords data).isEmpty = false := by
    cases hf : flattenRecords data with
    | nil => exact absurd hf hflatne
    | cons r rs => rfl
  refine ⟨⟨fileNameOf base t, header :: (sortRecords (flattenRecords data)).map renderRecord⟩,
    ?_, rfl, ?_, sortedByStart_sortRecords _, fun k => filter_sortRecords _ k,
    fun r hr => (mem_flattenRecords r data).mp ((mem_sortRecords r _).mp hr)⟩
  · unfold save_data
    simp only [hemp, Bool.false_eq_true, if_false]
  · simp only [List.length_cons, List.length_map, length_sortRecords, hlen]
    omega

/-- C3 (witness): the amended writer theorem applied to two concrete
wind forecasts, one value point each, with a tie on `start_date` between
the two forecasts. -/
theorem C3_witness :
    ∃ file,
      save_data
        [⟨"WIND_ONSHORE", "CURRENT",
          [⟨"2024-01-01T00:00:00+01:00", "2024-01-01T00:30:00+01:00", 120.5⟩]⟩,
         ⟨"WIND_ONSHORE", "CURRENT",
          [⟨"2024-01-01T00:00:00+01:00", "2024-01-01T00:30:00+01:00", 99⟩]⟩]
        "electricity_generation_wind" 1704067200000 = .ok file
      ∧ file.lines = header :: (sortRecords (flattenRecords
          [⟨"WIND_ONSHORE", "CURRENT",
            [⟨"2024-01-01T00:00:00+01:00", "2024-01-01T00:30:00+01:00", 120.5⟩]⟩,
           ⟨"WIND_ONSHORE", "CURRENT",
            [⟨"2024-01-01T00:00:00+01:00", "2024-01-01T00:30:00+01:00", 99⟩]⟩])).map renderRecord
      ∧ file.lines.length = 1 + 2 * 1
      ∧ sortedByStart (sortRecords (flattenRecords
          [⟨"WIND_ONSHORE", "CURRENT",
            [⟨"2024-01-01T00:00:00+01:00", "2024-01-01T00:30:00+01:00", 120.5⟩]⟩,
           ⟨"WIND_ONSHORE", "CURRENT",
            [⟨"2024-01-01T00:00:00+01:00", "2024-01-01T00:30:00+01:00", 99⟩]⟩])) = true
      ∧ (∀ k : String, (sortRecords (flattenRecords
          [⟨"WIND_ONSHORE", "CURRENT",
            [⟨"2024-01-01T00:00:00+01:00", "2024-01-01T00:30:00+01:00", 120.5⟩]⟩,
           ⟨"WIND_ONSHORE", "CURRENT",
            [⟨"2024-01-01T00:00:00+01:00", "2024-01-01T00:30:00+01:00", 99⟩]⟩])).filter
              (fun r => r.start_date == k)
          = (flattenRecords
          [⟨"WIND_ONSHORE", "CURRENT",
            [⟨"2024-01-01T00:00:00+01:00", "2024-01-01T00:30:00+01:00", 120.5⟩]⟩,
           ⟨"WIND_ONSHORE", "CURRENT",
            [⟨"2024-01-01T00:00:00+01:00", "2024-01-01T00:30:00+01:00", 99⟩]⟩]).filter
              (fun r => r.start_date == k))
      ∧ (∀ r ∈ sortRecords (flattenRecords
          [⟨"WIND_ONSHORE", "CURRENT",
            [⟨"2024-01-01T00:00:00+01:00", "2024-01-01T00:30:00+01:00", 120.5⟩]⟩,
           ⟨"WIND_ONSHORE", "CURRENT",
            [⟨"2024-01-01T00:00:00+01:00", "2024-01-01T00:30:00+01:00", 99⟩]⟩]),
          ∃ f ∈ [⟨"WIND_ONSHORE", "CURRENT",
            [⟨"2024-01-01T00:00:00+01:00", "2024-01-01T00:30:00+01:00", 120.5⟩]⟩,
           (⟨"WIND_ONSHORE", "CURRENT",
            [⟨"2024-01-01T00:00:00+01:00", "2024-01-01T00:30:00+01:00", 99⟩]⟩ : Forecast)],
            ∃ v ∈ f.values, r = mkRecord f v) :=
  C3_save_data _ "electricity_generation_wind" 1704067200000 1
    (by intro f hf; fin_cases hf <;> rfl) (by simp) (by simp)

/-- C4 (counterexample): the token claim is false as stated.
`requests.Response.ok` is `status < 400`, not "2xx": a 304 response (not
2xx) makes `get_token` return the body's token instead of raising; and a
200 response whose body holds an empty `access_token` makes it return the
empty string, not a non-empty one. -/
theorem C4_counterexample :
    get_token ⟨304, some "tok", "body"⟩ = .ok "tok"
    ∧ ¬ (200 ≤ 304 ∧ 304 < 300)
    ∧ get_token ⟨200, some "", "\x7b\x22access_token\x22: \x22\x22\x7d"⟩ = .ok ""
    ∧ ("" : String).length = 0 := by
  refine ⟨rfl, by omega, rfl, rfl⟩

/-- C4 (amended): when the token-endpoint response body carries an
`access_token` field, `get_token` returns exactly that string (empty or
not) if and only if the response status is below 400 (requests' `ok`
predicate), and raises the auth error carrying the HTTP status and body
exactly on status at least 400. -/
theorem C4_amended (r : TokenResponse) (tok : String) (hsome : r.access_token = some tok) :
    (get_token r = .ok tok ↔ r.status < 400)
    ∧ (get_token r = .error (.auth r.status r.text) ↔ 400 ≤ r.status) := by
  unfold get_token
  rw [hsome]
  by_cases hst : r.status < 400
  · have hok : respOk r.status = true := by simp [respOk, hst]
    rw [hok]
    simp [hst]
  · have hok : respOk r.status = false := by simp [respOk, hst]
    rw [hok]
    simp
    omega

/-- C4 (witness): the amended token theorem at a concrete 399 response. -/
theorem C4_witness :
    (get_token ⟨399, some "t", "b"⟩ = .ok "t" ↔ (⟨399, some "t", "b"⟩ : TokenResponse).status < 400)
    ∧ (get_token ⟨399, some "t", "b"⟩
        = .error (.auth (⟨399, some "t", "b"⟩ : TokenResponse).status
            (⟨399, some "t", "b"⟩ : TokenResponse).text)
      ↔ 400 ≤ (⟨399, some "t", "b"⟩ : TokenResponse).status) :=
  C4_amended ⟨399, some "t", "b"⟩ "t" rfl

/-- C5: if any per-chunk request of a range fetch returns a non-success
status, `get_all_data` aborts with a `FetchError` carrying that chunk
response's status and body and retains no partial result (its result is
the raised error, not a list); and in a pipeline run whose token request
succeeded, such a failure — in the wind fetch, or in the solar fetch after
a successful wind fetch — makes the whole run abort with that error, so no
output file is written for either production type and data fetched earlier
in the run is abandoned. -/
theorem C5_fetch_abort :
    (∀ (api : Int → Int → ForecastResponse) (fuel : Nat) (s e : Int),
      (∃ c ∈ chunks fuel s e, respOk (api c.1 c.2).status = false) →
      ∃ c ∈ chunks fuel s e, respOk (api c.1 c.2).status = false ∧
        get_all_data api fuel s e
          = .error (.fetch (api c.1 c.2).status (api c.1 c.2).text))
    ∧ (∀ (tokenResp : TokenResponse) (apiW apiS : Int → Int → ForecastResponse)
        (fuel : Nat) (nW nS : Int) (tok : String) (err : PipelineError),
        get_token tokenResp = .ok tok →
        (get_all_data apiW fuel START_DATE END_DATE = .error err →
            run_pipeline tokenResp apiW apiS fuel nW nS = .error err)
          ∧ (∀ wind_data, get_all_data apiW fuel START_DATE END_DATE = .ok wind_data →
              get_all_data apiS fuel START_DATE END_DATE = .error err →
              run_pipeline tokenResp apiW apiS fuel nW nS = .error err)) := by
  refine ⟨fun api fuel s e h => get_all_data_error api fuel s e h, ?_⟩
  intro tokenResp apiW apiS fuel nW nS tok err htok
  constructor
  · intro hw
    rw [run_pipeline, htok, hw]
    rfl
  · intro wind_data hw hs
    rw [run_pipeline, htok, hw, hs]
    rfl

/-- C5 (witness): the abort theorem at a concrete failing endpoint that
answers 500 to every chunk request of the configured range. -/
theorem C5_witness :
    (∃ c ∈ chunks 1 START_DATE END_DATE,
      respOk ((fun _ _ => (⟨500, none, "boom"⟩ : ForecastResponse)) c.1 c.2).status = false ∧
        get_all_data (fun _ _ => (⟨500, none, "boom"⟩ : ForecastResponse)) 1 START_DATE END_DATE
          = .error (.fetch ((fun _ _ => (⟨500, none, "boom"⟩ : ForecastResponse)) c.1 c.2).status
              ((fun _ _ => (⟨500, none, "boom"⟩ : ForecastResponse)) c.1 c.2).text))
    ∧ run_pipeline ⟨200, some "t", ""⟩ (fun _ _ => ⟨500, none, "boom"⟩)
        (fun _ _ => ⟨500, none, "boom"⟩) 1 0 0 = .error (.fetch 500 "boom") :=
  ⟨C5_fetch_abort.1 (fun _ _ => ⟨500, none, "boom"⟩) 1 START_DATE END_DATE
      ⟨(1704063600, 1705359600), by decide, by decide⟩,
   (C5_fetch_abort.2 ⟨200, some "t", ""⟩ (fun _ _ => ⟨500, none, "boom"⟩)
      (fun _ _ => ⟨500, none, "boom"⟩) 1 0 0 "t" (.fetch 500 "boom") rfl).1 rfl⟩

/-- C6 (counterexample): "only the final chunk may be shorter than 15
days" is false.  For the two-hour range from 2024-03-31 00:00 UTC
(instant 1711843200) to 2024-03-31 02:00 UTC (instant 1711850400), which
crosses the spring-forward transition, the first chunk's candidate end is
already capped by the global end, but its DST-corrected end (one hour
earlier) is still before the global end, so the loop runs again: the first
of the two produced chunks has a nominal span of two hours, far below 15
days, yet is not the final chunk. -/
theorem C6_counterexample :
    chunks 5 1711843200 1711850400
      = [(1711843200, 1711846800), (1711846800, 1711850400)]
    ∧ nonFinalFull 1711850400 (chunks 5 1711843200 1711850400) = false := by
  refine ⟨by decide, by decide⟩

/-- C6 (amended): every chunk's nominal (pre-DST-correction) span is at
most 15 days; when the range does not straddle a DST transition, every
non-final chunk's nominal span is exactly 15 days (only the final chunk
may be shorter, being bounded by the global end); and for `start = end`
zero chunks are produced and the fetch returns the empty list without
issuing any request. -/
theorem C6_amended :
    (∀ (fuel : Nat) (s e : Int), ∀ c ∈ chunks fuel s e,
      min (c.1 + DELTA_SECONDS) e - c.1 ≤ DELTA_SECONDS)
    ∧ (∀ (fuel : Nat) (s e : Int), noTransition s e = true →
        nonFinalFull e (chunks fuel s e) = true)
    ∧ (∀ (fuel : Nat) (s : Int), chunks fuel s s = [])
    ∧ (∀ (api : Int → Int → ForecastResponse) (fuel : Nat) (s : Int),
        get_all_data api fuel s s = .ok []) := by
  refine ⟨?_, fun fuel s e h => chunks_nonFinalFull fuel s e h,
    fun fuel s => chunks_nil fuel s s (lt_irrefl s),
    fun api fuel s => get_all_data_nil api fuel s s (lt_irrefl s)⟩
  intro fuel s e c _
  have h := min_le_left (c.1 + DELTA_SECONDS) e
  omega

/-- C6 (witness): the amended theorem at the concrete January 2024 range
(no transition) and at an empty range. -/
theorem C6_witness :
    (∀ c ∈ chunks 5 1704063600 1706742000,
      min (c.1 + DELTA_SECONDS) 1706742000 - c.1 ≤ DELTA_SECONDS)
    ∧ nonFinalFull 1706742000 (chunks 5 1704063600 1706742000) = true
    ∧ chunks 5 (1704063600 : Int) 1704063600 = []
    ∧ get_all_data (fun _ _ => ⟨200, none, ""⟩) 5 1704063600 1704063600 = .ok [] :=
  ⟨fun c hc => C6_amended.1 5 1704063600 1706742000 c hc,
   C6_amended.2.1 5 1704063600 1706742000 (by decide),
   C6_amended.2.2.1 5 1704063600,
   C6_amended.2.2.2 (fun _ _ => ⟨200, none, ""⟩) 5 1704063600⟩

/-- C7: the 31-day range from 2024-01-01T00:00:00+01:00 (instant
1704063600) to 2024-02-01T00:00:00+01:00 (instant 1706742000), entirely on
winter time, is chunked into exactly the three sub-intervals
[Jan 1, Jan 16), [Jan 16, Jan 31), [Jan 31, Feb 1): instants 1705359600
(Jan 16) and 1706655600 (Jan 31) are the interior boundaries.  The loop
terminates after three iterations, so fuel 5 reproduces it exactly. -/
theorem C7_example_chunks :
    chunks 5 1704063600 1706742000
      = [(1704063600, 1705359600), (1705359600, 1706655600), (1706655600, 1706742000)]
    ∧ (chunks 5 1704063600 1706742000).length = 3 := by
  refine ⟨by decide, by decide⟩

/-- C8 (counterexample): two `save_data` invocations whose clock readings
fall in the same wall-clock second (here 500 ms apart at 2024-01-01
01:00:00 Paris time) embed the same timestamp and produce the same file
name, so the later invocation overwrites the earlier snapshot: the claimed
distinctness is false as stated. -/
theorem C8_counterexample :
    fileNameOf "electricity_generation_wind" 1704067200000
      = fileNameOf "electricity_generation_wind" 1704067200500
    ∧ (1704067200000 : Int) ≠ 1704067200500
    ∧ fileNameOf "electricity_generation_wind" 1704067200000
      = "electricity_generation_wind_20240101_010000.csv" := by
  refine ⟨rfl, by decide, rfl⟩

/-- C8 (amended): for two invocations of the writer with the same base
name at instants (milliseconds since the Unix epoch) whose Europe/Paris
wall-clock readings lie between 2001-01-01 and 2400-12-31, the produced
file names are distinct if and only if the wall-clock readings truncated
to whole seconds differ.  In particular the 3-hour scheduler cadence
always yields distinct names, while calls within the same second (or at
instants one hour apart that repeat the same wall-clock reading across the
fall-back transition) collide and overwrite. -/
theorem C8_amended (base : String) (t1 t2 : Int)
    (h11 : 978307200 ≤ parisWallSec t1) (h12 : parisWallSec t1 < 13601088000)
    (h21 : 978307200 ≤ parisWallSec t2) (h22 : parisWallSec t2 < 13601088000) :
    fileNameOf base t1 = fileNameOf base t2 ↔ parisWallSec t1 = parisWallSec t2 :=
  fileNameOf_eq_iff base t1 t2 h11 h12 h21 h22

/-- C8 (witness): the amended naming theorem at two instants one second
apart, whose file names therefore differ. -/
theorem C8_witness :
    (fileNameOf "electricity_generation_wind" 1704067200000
        = fileNameOf "electricity_generation_wind" 1704067201000
      ↔ parisWallSec 1704067200000 = parisWallSec 1704067201000)
    ∧ parisWallSec 1704067200000 ≠ parisWallSec 1704067201000 :=
  ⟨C8_amended "electricity_generation_wind" 1704067200000 1704067201000
      (by decide) (by decide) (by decide) (by decide),
   by decide⟩

/-- C9: called on an empty forecast sequence, or on forecasts all of whose
value lists are empty, `save_data` flattens to an empty record collection;
the dataframe built from it has no `start_date` column, so the sort raises
a `KeyError` and no output file is produced (no header-only CSV is ever
written).  Modelled from the spec for the pandas calls not under `src/`:
`pd.DataFrame([])` has no columns and `sort_values` on a missing column
raises `KeyError`. -/
theorem C9_empty_save (data : List Forecast) (base : String) (t : Int)
    (h : ∀ f ∈ data, f.values = []) :
    save_data data base t = .error (.keyError "start_date") := by
  have hflat : flattenRecords data = [] := flattenRecords_eq_nil data h
  unfold save_data
  simp only [hflat, List.isEmpty_nil, if_true]

/-- C9 (witness): the empty-writer theorem at the empty input and at one
forecast with an empty value list. -/
theorem C9_witness :
    save_data [] "electricity_generation_wind" 0 = .error (.keyError "start_date")
    ∧ save_data [⟨"SOLAR", "CURRENT", []⟩] "electricity_generation_solar" 0
      = .error (.keyError "start_date") :=
  ⟨C9_empty_save [] "electricity_generation_wind" 0 (by simp),
   C9_empty_save [⟨"SOLAR", "CURRENT", []⟩] "electricity_generation_solar" 0
     (by intro f hf; fin_cases hf; rfl)⟩

/-- C10: a successful (ok) forecast-endpoint response whose JSON body has
no `forecasts` key makes `get_interval_data` return the empty list (via
`.get("forecasts", [])`) rather than raise, contributing zero forecasts to
the range result. -/
theorem C10_missing_forecasts (r : ForecastResponse) (hok : respOk r.status = true)
    (hnone : r.forecasts = none) : get_interval_data r = .ok [] := by
  unfold get_interval_data
  rw [if_pos hok, hnone]
  rfl

/-- C10 (witness): the missing-key theorem at a concrete 200 response with
an empty JSON object body. -/
theorem C10_witness : get_interval_data ⟨200, none, "\x7b\x7d"⟩ = .ok [] :=
  C10_missing_forecasts ⟨200, none, "\x7b\x7d"⟩ rfl rfl
